import Mathlib

/-!
Shallow embedding of the `inventory` Django app (models.py, forms.py,
views.py, serializers.py, api_views.py, roles.py) for verification of the
loan target resolution and lifecycle rules.

Dates are modelled as integers (days); the database is a record of lists;
foreign keys that the code always dereferences through `select_related`
(desk → room → office, department position → department → office) are
embedded as nested structures, matching how the code reads them.
-/

namespace Inventory

inductive AssetStatus
  | available
  | assigned
  | inService
  | retired
deriving DecidableEq, Repr

structure Office where
  id : Nat
  name : String
deriving DecidableEq, Repr

structure Room where
  id : Nat
  office : Office
  name : String
deriving DecidableEq, Repr

structure Desk where
  id : Nat
  room : Room
  code : String
deriving DecidableEq, Repr

structure Department where
  id : Nat
  office : Office
  name : String
  color : String
deriving DecidableEq, Repr

structure DepartmentPosition where
  id : Nat
  department : Department
  number : Nat
deriving DecidableEq, Repr

structure Person where
  id : Nat
  firstName : String
  lastName : String
  department : Option String
  email : Option String
  userId : Option Nat
deriving DecidableEq, Repr

structure Asset where
  id : Nat
  categoryId : Nat
  name : String
  serialNumber : String
  status : AssetStatus
deriving DecidableEq, Repr

structure User where
  id : Nat
  username : String
  email : String
  isAuthenticated : Bool
  isSuperuser : Bool
  isStaff : Bool
  groups : List String
deriving DecidableEq, Repr

structure Loan where
  id : Nat
  assetId : Nat
  createdById : Option Nat
  person : Option Person
  desk : Option Desk
  office : Option Office
  departmentPosition : Option DepartmentPosition
  department : Option String
  loanDate : Int
  dueDate : Option Int
  returnDate : Option Int
  issuedBy : Option String
deriving DecidableEq, Repr

structure Db where
  assets : List Asset
  persons : List Person
  loans : List Loan
  nextLoanId : Nat
deriving DecidableEq, Repr

instance {ε α : Type} [DecidableEq ε] [DecidableEq α] : DecidableEq (Except ε α) :=
  fun a b =>
    match a, b with
    | Except.error e1, Except.error e2 =>
      if h : e1 = e2 then isTrue (by rw [h])
      else isFalse (fun hc => by cases hc; exact h rfl)
    | Except.error _, Except.ok _ => isFalse (fun hc => by cases hc)
    | Except.ok _, Except.error _ => isFalse (fun hc => by cases hc)
    | Except.ok v1, Except.ok v2 =>
      if h : v1 = v2 then isTrue (by rw [h])
      else isFalse (fun hc => by cases hc; exact h rfl)

/-- Embeds `Person.__str__` -/
def personStr (p : Person) : String := p.firstName ++ " " ++ p.lastName

/-- Embeds `Office.__str__` -/
def officeStr (o : Office) : String := o.name

/-- Embeds `Desk.__str__` -/
def deskStr (d : Desk) : String :=
  d.room.office.name ++ " / " ++ d.room.name ++ " / " ++ d.code

/-- Embeds `DepartmentPosition.__str__` -/
def dpStr (dp : DepartmentPosition) : String :=
  dp.department.name ++ " #" ++ toString dp.number

/-- Python truthiness of an optional string field: `None` and `""` are falsy. -/
def optStrTruthy : Option String → Bool
  | none => false
  | some s => s != ""

def ROLE_ADMIN : String := "admin"
def ROLE_EMPLOYEE : String := "employee"
def ROLE_COMPANY : String := "company"

def ROLE_NAMES : List String := [ROLE_ADMIN, ROLE_EMPLOYEE, ROLE_COMPANY]

/-- Embeds `roles.get_user_role` -/
def get_user_role (user : User) : String :=
  if !user.isAuthenticated then ROLE_EMPLOYEE
  else if user.isSuperuser || user.isStaff then ROLE_ADMIN
  else
    match user.groups.find? (fun n => ROLE_NAMES.contains n) with
    | some n => n
    | none => ROLE_EMPLOYEE

/-- The reverse one-to-one `user.person_profile` access. -/
def linkedPerson (db : Db) (user : User) : Option Person :=
  db.persons.find? (fun p => p.userId == some user.id)

/-- Lower-casing by characters (the kernel-computable form of `toLower`). -/
def lowerStr (s : String) : String :=
  String.mk (s.data.map Char.toLower)

def isSpaceChar (c : Char) : Bool :=
  c == ' ' || c == '\t' || c == '\n' || c == '\r'

/-- Python `str.strip()`: drop whitespace from both ends. -/
def trimStr (s : String) : String :=
  String.mk (((s.data.dropWhile isSpaceChar).reverse.dropWhile isSpaceChar).reverse)

/-- Embeds `email__iexact` (case-insensitive equality on a non-null email column). -/
def emailIexact (p : Person) (email : String) : Bool :=
  match p.email with
  | some e => lowerStr e == lowerStr email
  | none => false

/-- One fold step of Django's `first()` on an unordered queryset, which
orders by primary key: keep the least id, earliest wins ties. -/
def pickFirstByPk (acc : Option Person) (p : Person) : Option Person :=
  match acc with
  | none => some p
  | some q => if p.id < q.id then some p else some q

/-- Embeds `Person.objects.filter(email__iexact=email).first()` -/
def emailIexactFirst (db : Db) (email : String) : Option Person :=
  (db.persons.filter (fun p => emailIexact p email)).foldl pickFirstByPk none

/-- Embeds `views._resolve_person_for_user` (strips the email before matching). -/
def resolve_person_for_user (db : Db) (user : User) : Option Person :=
  if !user.isAuthenticated then none
  else
    match linkedPerson db user with
    | some p => some p
    | none =>
      let email := trimStr user.email
      if email != "" then emailIexactFirst db email else none

/-- Embeds `EmployeeLoanForm._resolve_person` (no strip on the email). -/
def employeeResolvePerson (db : Db) (user : User) : Option Person :=
  if !user.isAuthenticated then none
  else
    match linkedPerson db user with
    | some p => some p
    | none =>
      if user.email != "" then emailIexactFirst db user.email else none

/-- Embeds `forms._validate_loan_dates` -/
def validateLoanDates (today : Int) (loanDate : Int) (dueDate : Option Int) :
    Except String Unit :=
  if loanDate < today then Except.error "Loan date cannot be earlier than today."
  else
    match dueDate with
    | none => Except.ok ()
    | some d =>
      if d < today then Except.error "Due date cannot be earlier than today."
      else if d < loanDate then Except.error "Due date cannot be earlier than loan date."
      else Except.ok ()

/-- Embeds `forms._is_department_position_available` -/
def isDepartmentPositionAvailable (db : Db) (dp : DepartmentPosition) : Bool :=
  !(db.loans.any (fun l =>
    (match l.departmentPosition with
     | some q => q.id == dp.id
     | none => false) && l.returnDate == none))

/-- Embeds `forms._assign_legacy_department_label` -/
def assignLegacyDepartmentLabel (loan : Loan) : Loan :=
  if (match loan.person with
      | some p => optStrTruthy p.department
      | none => false) then
    { loan with department := loan.person.bind Person.department }
  else
    match loan.departmentPosition with
    | some dp => { loan with department := some (dpStr dp) }
    | none =>
      if !(optStrTruthy loan.department) then { loan with department := none }
      else loan

/-- The POST payload read by the role forms: selected instances plus dates.
`targetType` is only read by the admin form. -/
structure RawInput where
  targetType : Option String
  assetId : Nat
  person : Option Person
  desk : Option Desk
  office : Option Office
  departmentPosition : Option DepartmentPosition
  loanDate : Int
  dueDate : Option Int
deriving DecidableEq, Repr

/-- The cleaned data a loan form carries into `save`, restricted to the
model fields listed in each form's `Meta.fields`; the `department` key the
admin form writes into `cleaned_data` is not among them, so Django's
`construct_instance` never copies it onto the Loan and it is omitted here. -/
structure CleanedLoan where
  asset : Asset
  person : Option Person
  desk : Option Desk
  office : Option Office
  departmentPosition : Option DepartmentPosition
  loanDate : Int
  dueDate : Option Int
deriving DecidableEq, Repr

def findAsset (db : Db) (assetId : Nat) : Option Asset :=
  db.assets.find? (fun a => a.id == assetId)

def findLoan (db : Db) (loanId : Nat) : Option Loan :=
  db.loans.find? (fun l => l.id == loanId)

def mkBaseCleaned (asset : Asset) (inp : RawInput) : CleanedLoan :=
  { asset := asset, person := none, desk := none, office := none,
    departmentPosition := none, loanDate := inp.loanDate, dueDate := inp.dueDate }

/-- The target-type dispatch of `AdminLoanForm.clean`, after the asset
checks and after all four target keys have been nulled in `cleaned`. -/
def adminTargetStep (db : Db) (inp : RawInput) (base : CleanedLoan) :
    Except String CleanedLoan :=
  if inp.targetType == some "person" then
    match inp.person with
    | none => Except.error "Select a person."
    | some p => Except.ok { base with person := some p }
  else if inp.targetType == some "desk" then
    match inp.desk with
    | none => Except.error "Select a desk."
    | some d =>
      match inp.departmentPosition with
      | none => Except.error "Select a department position."
      | some dp =>
        if (match inp.office with
            | some o => d.room.office.id != o.id
            | none => false) then
          Except.error "Selected desk is not in the chosen office."
        else if dp.department.office.id != d.room.office.id then
          Except.error "Selected department is not in the desk office."
        else if !(isDepartmentPositionAvailable db dp) then
          Except.error "Selected department position is already assigned."
        else
          Except.ok { base with desk := some d, departmentPosition := some dp }
  else if inp.targetType == some "office" then
    match inp.office with
    | none => Except.error "Select an office."
    | some o => Except.ok { base with office := some o }
  else if inp.targetType == some "department" then
    match inp.departmentPosition with
    | none => Except.error "Select a department position."
    | some dp =>
      if (match inp.office with
          | some o => dp.department.office.id != o.id
          | none => false) then
        Except.error "Selected department is not in the chosen office."
      else if !(isDepartmentPositionAvailable db dp) then
        Except.error "Selected department position is already assigned."
      else
        Except.ok { base with departmentPosition := some dp }
  else Except.error "Choose loan target type."

/-- Embeds `AdminLoanForm.clean` -/
def adminLoanClean (db : Db) (today : Int) (inp : RawInput) :
    Except String CleanedLoan :=
  match findAsset db inp.assetId with
  | none => Except.error "Asset is required."
  | some asset =>
    if asset.status != AssetStatus.available then
      Except.error "Selected asset is not available."
    else
      match adminTargetStep db inp (mkBaseCleaned asset inp) with
      | Except.error e => Except.error e
      | Except.ok cleaned =>
        match validateLoanDates today cleaned.loanDate cleaned.dueDate with
        | Except.error e => Except.error e
        | Except.ok _ => Except.ok cleaned

/-- Embeds `CompanyLoanForm.clean` -/
def companyLoanClean (db : Db) (today : Int) (inp : RawInput) :
    Except String CleanedLoan :=
  match findAsset db inp.assetId with
  | none => Except.error "Asset is required."
  | some asset =>
    if asset.status != AssetStatus.available then
      Except.error "Selected asset is not available."
    else
      match inp.office with
      | none => Except.error "Office is required."
      | some o =>
        match inp.departmentPosition with
        | none => Except.error "Department is required."
        | some dp =>
          if dp.department.office.id != o.id then
            Except.error "Selected department is not in the chosen office."
          else if !(isDepartmentPositionAvailable db dp) then
            Except.error "Selected department position is already assigned."
          else
            match validateLoanDates today inp.loanDate inp.dueDate with
            | Except.error e => Except.error e
            | Except.ok _ =>
              Except.ok { mkBaseCleaned asset inp with
                office := some o, departmentPosition := some dp }

structure EmployeeCleaned where
  cleaned : CleanedLoan
  resolvedPerson : Person
deriving DecidableEq, Repr

def profileNotLinkedMsg : String :=
  "Your account is not linked to an employee profile yet. Ask admin to link your user to a Person record (or set matching email)."

/-- Embeds `EmployeeLoanForm.clean` -/
def employeeLoanClean (db : Db) (today : Int) (user : User) (inp : RawInput) :
    Except String EmployeeCleaned :=
  match findAsset db inp.assetId with
  | none => Except.error "Asset is required."
  | some asset =>
    if asset.status != AssetStatus.available then
      Except.error "Selected asset is not available."
    else
      match inp.office with
      | none => Except.error "Office is required."
      | some o =>
        match inp.departmentPosition with
        | none => Except.error "Department is required."
        | some dp =>
          if dp.department.office.id != o.id then
            Except.error "Selected department is not in the chosen office."
          else if !(isDepartmentPositionAvailable db dp) then
            Except.error "Selected department position is already assigned."
          else
            match inp.desk with
            | none => Except.error "Desk is required."
            | some d =>
              if d.room.office.id != o.id then
                Except.error "Selected desk is not in the chosen office."
              else
                match employeeResolvePerson db user with
                | none => Except.error profileNotLinkedMsg
                | some p =>
                  match validateLoanDates today inp.loanDate inp.dueDate with
                  | Except.error e => Except.error e
                  | Except.ok _ =>
                    Except.ok {
                      cleaned := { mkBaseCleaned asset inp with
                        office := some o, departmentPosition := some dp,
                        desk := some d },
                      resolvedPerson := p }

/-- Django's `construct_instance` applied to the cleaned Meta fields of a
loan form: a fresh Loan instance before `save` runs. -/
def buildLoan (loanId : Nat) (c : CleanedLoan) : Loan :=
  { id := loanId, assetId := c.asset.id, createdById := none,
    person := c.person, desk := c.desk, office := c.office,
    departmentPosition := c.departmentPosition, department := none,
    loanDate := c.loanDate, dueDate := c.dueDate, returnDate := none,
    issuedBy := none }

/-- Embeds `AdminLoanForm.save(commit=False)` -/
def adminFormSave (loanId : Nat) (c : CleanedLoan) : Loan :=
  assignLegacyDepartmentLabel (buildLoan loanId c)

/-- Embeds `CompanyLoanForm.save(commit=False)` -/
def companyFormSave (loanId : Nat) (c : CleanedLoan) : Loan :=
  assignLegacyDepartmentLabel (buildLoan loanId c)

/-- Embeds `EmployeeLoanForm.save(commit=False)`, which overrides `person` with the
resolved person before the legacy label assignment. -/
def employeeFormSave (loanId : Nat) (ec : EmployeeCleaned) : Loan :=
  assignLegacyDepartmentLabel
    { buildLoan loanId ec.cleaned with person := some ec.resolvedPerson }

/-- The role dispatch of `views.loan_create` followed by the chosen form's
`is_valid`/`save(commit=False)`. -/
def formCleanSave (role : String) (db : Db) (today : Int) (user : User)
    (inp : RawInput) : Except String Loan :=
  if role == ROLE_ADMIN then
    match adminLoanClean db today inp with
    | Except.error e => Except.error e
    | Except.ok c => Except.ok (adminFormSave db.nextLoanId c)
  else if role == ROLE_COMPANY then
    match companyLoanClean db today inp with
    | Except.error e => Except.error e
    | Except.ok c => Except.ok (companyFormSave db.nextLoanId c)
  else
    match employeeLoanClean db today user inp with
    | Except.error e => Except.error e
    | Except.ok ec => Except.ok (employeeFormSave db.nextLoanId ec)

def setAssetStatus (assets : List Asset) (assetId : Nat) (st : AssetStatus) :
    List Asset :=
  assets.map (fun a => if a.id == assetId then { a with status := st } else a)

def setLoanReturnDate (loans : List Loan) (loanId : Nat) (d : Int) : List Loan :=
  loans.map (fun l => if l.id == loanId then { l with returnDate := some d } else l)

/-- Embeds `views.loan_create` (POST branch): validate and bind through the role
form, stamp `created_by`/`issued_by`, flip the asset to `assigned` and
persist the loan in one transaction. -/
def loan_create (db : Db) (today : Int) (user : User) (inp : RawInput) :
    Except String Db :=
  match formCleanSave (get_user_role user) db today user inp with
  | Except.error e => Except.error e
  | Except.ok loan0 =>
    Except.ok { db with
      assets := setAssetStatus db.assets loan0.assetId AssetStatus.assigned,
      loans := db.loans ++
        [{ loan0 with createdById := some user.id,
                      issuedBy := some user.username }],
      nextLoanId := db.nextLoanId + 1 }

inductive ViewReturnResult
  | notFound
  | forbidden
  | redirected (db : Db)
deriving DecidableEq, Repr

/-- The authorization test inlined in `views.loan_return`. -/
def canReturnLoan (user : User) (loan : Loan) : Bool :=
  get_user_role user == ROLE_ADMIN
  || loan.createdById == some user.id
  || (match loan.person with
      | some p => p.userId == some user.id
      | none => false)

/-- Embeds `views.loan_return` (POST branch). Note the already-returned case falls
through to the redirect without touching state. -/
def loan_return (db : Db) (today : Int) (user : User) (loanId : Nat) :
    ViewReturnResult :=
  match findLoan db loanId with
  | none => ViewReturnResult.notFound
  | some loan =>
    if !(canReturnLoan user loan) then ViewReturnResult.forbidden
    else if loan.returnDate == none then
      ViewReturnResult.redirected { db with
        loans := setLoanReturnDate db.loans loanId today,
        assets := setAssetStatus db.assets loan.assetId AssetStatus.available }
    else ViewReturnResult.redirected db

inductive ApiReturnResult
  | notFound
  | badRequest (detail : String)
  | ok (db : Db)
deriving DecidableEq, Repr

/-- Embeds `api_views.LoanViewSet.return_loan`; no per-actor authorization check
appears in the action body. -/
def api_return_loan (db : Db) (today : Int) (loanId : Nat) : ApiReturnResult :=
  match findLoan db loanId with
  | none => ApiReturnResult.notFound
  | some loan =>
    if loan.returnDate != none then
      ApiReturnResult.badRequest "Loan already returned."
    else
      ApiReturnResult.ok { db with
        loans := setLoanReturnDate db.loans loanId today,
        assets := setAssetStatus db.assets loan.assetId AssetStatus.available }

structure ApiLoanInput where
  assetId : Nat
  person : Option Person
  desk : Option Desk
  office : Option Office
  departmentPosition : Option DepartmentPosition
  department : Option String
  dueDate : Option Int
  issuedBy : Option String
deriving DecidableEq, Repr

structure ApiValidated where
  asset : Asset
  person : Option Person
  desk : Option Desk
  office : Option Office
  departmentPosition : Option DepartmentPosition
  department : Option String
  dueDate : Option Int
  issuedBy : Option String
deriving DecidableEq, Repr

/-- The number of populated candidate targets `LoanSerializer.validate`
counts: the four references plus the stripped department label. -/
def serializerChosenCount (inp : ApiLoanInput) : Nat :=
  (if inp.person.isSome then 1 else 0)
  + (if inp.desk.isSome then 1 else 0)
  + (if inp.office.isSome then 1 else 0)
  + (if inp.departmentPosition.isSome then 1 else 0)
  + (if trimStr (inp.department.getD "") != "" then 1 else 0)

/-- The department label `LoanSerializer.validate` leaves in the attrs. -/
def serializerDeptLabel (inp : ApiLoanInput) : Option String :=
  if trimStr (inp.department.getD "") != "" then some (trimStr (inp.department.getD ""))
  else
    match inp.departmentPosition with
    | some dp => some (dpStr dp)
    | none => inp.department

/-- Embeds `LoanSerializer.validate` -/
def loanSerializerValidate (db : Db) (inp : ApiLoanInput) :
    Except String ApiValidated :=
  match findAsset db inp.assetId with
  | none => Except.error "Asset is required."
  | some asset =>
    if asset.status != AssetStatus.available then
      Except.error "Asset is not available."
    else if serializerChosenCount inp != 1 then
      Except.error "Choose exactly one target: person OR desk OR office OR department."
    else if (match inp.departmentPosition with
        | some dp => !(isDepartmentPositionAvailable db dp)
        | none => false) then
      Except.error "Selected department position is already assigned."
    else
      Except.ok
        { asset := asset, person := inp.person, desk := inp.desk,
          office := inp.office, departmentPosition := inp.departmentPosition,
          department := serializerDeptLabel inp, dueDate := inp.dueDate,
          issuedBy := inp.issuedBy }

/-- Embeds `LoanSerializer.create`, which flips the asset and inserts a loan whose
`loan_date` is forced to today and whose `created_by` is never set. -/
def loanSerializerCreate (db : Db) (today : Int) (v : ApiValidated) : Db :=
  let loan : Loan :=
    { id := db.nextLoanId, assetId := v.asset.id,
      createdById := none, person := v.person, desk := v.desk,
      office := v.office, departmentPosition := v.departmentPosition,
      department := v.department, loanDate := today, dueDate := v.dueDate,
      returnDate := none, issuedBy := v.issuedBy }
  { db with
    assets := setAssetStatus db.assets v.asset.id AssetStatus.assigned,
    loans := db.loans ++ [loan],
    nextLoanId := db.nextLoanId + 1 }

/-- The REST create path: `LoanSerializer.validate` then `create`. -/
def api_loan_create (db : Db) (today : Int) (inp : ApiLoanInput) :
    Except String Db :=
  match loanSerializerValidate db inp with
  | Except.error e => Except.error e
  | Except.ok v => Except.ok (loanSerializerCreate db today v)

/-- The visibility disjunction `Q(created_by=user) | Q(person=person)` of
`views.loans_list` and `views.history`. -/
def loanVisiblePred (user : User) (person : Option Person) (l : Loan) : Bool :=
  l.createdById == some user.id
  || (match person, l.person with
      | some p, some lp => lp.id == p.id
      | _, _ => false)

/-- Embeds `views.loans_list` (active loans; sorting is presentation and omitted). -/
def loans_list (db : Db) (user : User) : List Loan :=
  let baseQs := db.loans.filter (fun l => l.returnDate == none)
  let person := resolve_person_for_user db user
  if get_user_role user == ROLE_ADMIN then baseQs
  else baseQs.filter (loanVisiblePred user person)

/-- Embeds `views.history` (all loans; sorting is presentation and omitted). -/
def history (db : Db) (user : User) : List Loan :=
  let person := resolve_person_for_user db user
  if get_user_role user == ROLE_ADMIN then db.loans
  else db.loans.filter (loanVisiblePred user person)

/-- Embeds `Loan.target_label` -/
def target_label (l : Loan) : String :=
  match l.person with
  | some p => "Person: " ++ personStr p
  | none =>
    match l.desk with
    | some d => "Desk: " ++ deskStr d
    | none =>
      match l.office with
      | some o => "Office: " ++ officeStr o
      | none =>
        match l.departmentPosition with
        | some dp => "Department: " ++ dpStr dp
        | none =>
          if optStrTruthy l.department then
            "Department: " ++ l.department.getD ""
          else "-"

structure TargetInfo where
  targetType : Option String
  label : String
deriving DecidableEq, Repr

/-- Embeds `LoanSerializer.get_target` -/
def get_target (l : Loan) : TargetInfo :=
  match l.person with
  | some p => { targetType := some "person", label := personStr p }
  | none =>
    match l.desk with
    | some d => { targetType := some "desk", label := deskStr d }
    | none =>
      match l.office with
      | some o => { targetType := some "office", label := officeStr o }
      | none =>
        match l.departmentPosition with
        | some dp => { targetType := some "department", label := dpStr dp }
        | none =>
          if optStrTruthy l.department then
            { targetType := some "department", label := l.department.getD "" }
          else { targetType := none, label := "-" }

/-- Embeds `AssetForm.Meta.fields` -/
def assetFormMetaFields : List String :=
  ["category", "name", "serial_number", "asset_tag", "status", "purchase_date", "notes"]

/-- Embeds `AssetSerializer.Meta.fields` minus the declared read-only
`category_name`: the writable surface of the REST asset resource. -/
def assetSerializerWritableFields : List String :=
  ["category", "name", "serial_number", "asset_tag", "status", "purchase_date", "notes"]

structure AssetFormInput where
  categoryId : Nat
  name : String
  serialNumber : String
  status : AssetStatus
deriving DecidableEq, Repr

/-- Embeds `views.asset_create` (POST branch): `AssetForm.save` persists a new
asset with every Meta field, `status` included, taken from the input. -/
def asset_create_view (db : Db) (nextAssetId : Nat) (inp : AssetFormInput) : Db :=
  { db with assets := db.assets ++
      [{ id := nextAssetId, categoryId := inp.categoryId, name := inp.name,
         serialNumber := inp.serialNumber, status := inp.status }] }

/-- Embeds the `AssetViewSet` update through `AssetSerializer`, which writes every writable
field, `status` included, onto the existing asset row. -/
def assetSerializerUpdate (db : Db) (assetId : Nat) (inp : AssetFormInput) : Db :=
  { db with assets := db.assets.map (fun a =>
      if a.id == assetId then
        { a with categoryId := inp.categoryId, name := inp.name,
                 serialNumber := inp.serialNumber, status := inp.status }
      else a) }

/-- The four mutually-exclusive loan target foreign keys, as presence flags
(person, desk, office, department_position). -/
def targetPattern (l : Loan) : Bool × Bool × Bool × Bool :=
  (l.person.isSome, l.desk.isSome, l.office.isSome, l.departmentPosition.isSome)

def exOffice : Office := { id := 1, name := "Berlin" }

def exRoom : Room := { id := 1, office := exOffice, name := "Room 1" }

def exDesk : Desk := { id := 1, room := exRoom, code := "D1" }

def exDept : Department := { id := 1, office := exOffice, name := "Blue", color := "blue" }

def exDp : DepartmentPosition := { id := 1, department := exDept, number := 1 }

def exAsset : Asset :=
  { id := 1, categoryId := 1, name := "Laptop", serialNumber := "SN1",
    status := AssetStatus.available }

def exPersonP : Person :=
  { id := 1, firstName := "Jan", lastName := "Kowalski", department := some "IT",
    email := some "jan@example.com", userId := none }

def exEmployeeUser : User :=
  { id := 2, username := "jan", email := "jan@example.com",
    isAuthenticated := true, isSuperuser := false, isStaff := false, groups := [] }

def exAdminUser : User :=
  { id := 1, username := "root", email := "",
    isAuthenticated := true, isSuperuser := false, isStaff := true, groups := [] }

def exStranger : User :=
  { id := 7, username := "eve", email := "",
    isAuthenticated := true, isSuperuser := false, isStaff := false, groups := [] }

def exDb : Db :=
  { assets := [exAsset], persons := [exPersonP], loans := [], nextLoanId := 1 }

def exEmployeeInput : RawInput :=
  { targetType := none, assetId := 1, person := none, desk := some exDesk,
    office := some exOffice, departmentPosition := some exDp,
    loanDate := 0, dueDate := none }

def exAdminDeptInput : RawInput :=
  { targetType := some "department", assetId := 1, person := none, desk := none,
    office := some exOffice, departmentPosition := some exDp,
    loanDate := 0, dueDate := none }

def exAdminPersonInput : RawInput :=
  { targetType := some "person", assetId := 1, person := some exPersonP,
    desk := none, office := none, departmentPosition := none,
    loanDate := 0, dueDate := none }

def exReturnedLoan : Loan :=
  { id := 1, assetId := 1, createdById := some 1, person := none, desk := none,
    office := none, departmentPosition := none, department := none,
    loanDate := 0, dueDate := none, returnDate := some 3, issuedBy := some "root" }

def exDbReturned : Db :=
  { assets := [exAsset], persons := [], loans := [exReturnedLoan], nextLoanId := 2 }

def exActiveLoan : Loan :=
  { exReturnedLoan with returnDate := none }

def exDbActive : Db :=
  { assets := [{ exAsset with status := AssetStatus.assigned }], persons := [],
    loans := [exActiveLoan], nextLoanId := 2 }

/-- The textual rendering the HTML `target_label` applies to a serializer
target: the spec-side bridge used to state that the two projections agree. -/
def renderTarget (t : TargetInfo) : String :=
  match t.targetType with
  | some s =>
    if s == "person" then "Person: " ++ t.label
    else if s == "desk" then "Desk: " ++ t.label
    else if s == "office" then "Office: " ++ t.label
    else if s == "department" then "Department: " ++ t.label
    else "-"
  | none => "-"

def exUserNoProfile : User :=
  { id := 9, username := "bob", email := "bob@example.com",
    isAuthenticated := true, isSuperuser := false, isStaff := false, groups := [] }

def exEmployeeLoan : Loan :=
  { id := 1, assetId := 1, createdById := some 2, person := some exPersonP,
    desk := some exDesk, office := some exOffice, departmentPosition := some exDp,
    department := some "IT", loanDate := 0, dueDate := none, returnDate := none,
    issuedBy := some "jan" }

def exDbAfterCreate : Db :=
  { assets := [{ exAsset with status := AssetStatus.assigned }],
    persons := [exPersonP], loans := [exEmployeeLoan], nextLoanId := 2 }

def exAdminPersonCleaned : CleanedLoan :=
  { asset := exAsset, person := some exPersonP, desk := none, office := none,
    departmentPosition := none, loanDate := 0, dueDate := none }

def exAssetStatusInput : AssetFormInput :=
  { categoryId := 1, name := "Laptop", serialNumber := "SN1",
    status := AssetStatus.assigned }

theorem assignLegacy_shape (l : Loan) :
    ∃ d, assignLegacyDepartmentLabel l = { l with department := d } := by
  unfold assignLegacyDepartmentLabel
  split
  · exact ⟨_, rfl⟩
  · split
    · exact ⟨_, rfl⟩
    · split
      · exact ⟨_, rfl⟩
      · exact ⟨l.department, rfl⟩

theorem targetPattern_assignLegacy (l : Loan) :
    targetPattern (assignLegacyDepartmentLabel l) = targetPattern l := by
  obtain ⟨d, hd⟩ := assignLegacy_shape l
  simp [hd, targetPattern]

theorem assignLegacy_proj (l : Loan) :
    (assignLegacyDepartmentLabel l).id = l.id ∧
    (assignLegacyDepartmentLabel l).assetId = l.assetId ∧
    (assignLegacyDepartmentLabel l).returnDate = l.returnDate ∧
    (assignLegacyDepartmentLabel l).person = l.person ∧
    (assignLegacyDepartmentLabel l).createdById = l.createdById := by
  obtain ⟨d, hd⟩ := assignLegacy_shape l
  simp [hd]

theorem find_append_last {α : Type} (p : α → Bool) (xs : List α) (x : α)
    (hxs : ∀ y ∈ xs, p y = false) (hx : p x = true) :
    (xs ++ [x]).find? p = some x := by
  induction xs with
  | nil => simp [List.find?, hx]
  | cons a as ih =>
    have ha : p a = false := hxs a (by simp)
    simp only [List.cons_append, List.find?, ha]
    exact ih (fun y hy => hxs y (by simp [hy]))

theorem setAssetStatus_status {assets : List Asset} {i : Nat} {st : AssetStatus}
    {a : Asset} (ha : a ∈ setAssetStatus assets i st) (hid : a.id = i) :
    a.status = st := by
  unfold setAssetStatus at ha
  rcases List.mem_map.1 ha with ⟨b, hb, heq⟩
  by_cases hbi : b.id = i
  · rw [if_pos (by simp [hbi])] at heq
    rw [← heq]
  · rw [if_neg (by simp [hbi])] at heq
    subst heq
    exact absurd hid hbi

theorem setLoanReturnDate_append (xs ys : List Loan) (i : Nat) (d : Int) :
    setLoanReturnDate (xs ++ ys) i d =
      setLoanReturnDate xs i d ++ setLoanReturnDate ys i d := by
  simp [setLoanReturnDate]

theorem setLoanReturnDate_fresh (loans : List Loan) (i j : Nat) (d : Int)
    (h : ∀ l ∈ loans, l.id ≠ j) :
    ∀ l ∈ setLoanReturnDate loans i d, l.id ≠ j := by
  intro l hl
  unfold setLoanReturnDate at hl
  rcases List.mem_map.1 hl with ⟨b, hb, heq⟩
  subst heq
  split
  · exact h b hb
  · exact h b hb

theorem validateLoanDates_ok_iff (today ld : Int) (dd : Option Int) :
    validateLoanDates today ld dd = Except.ok () ↔
      (today ≤ ld ∧ ∀ d, dd = some d → ld ≤ d) := by
  cases dd with
  | none =>
    simp only [validateLoanDates]
    split_ifs with h1
    · constructor
      · intro h; simp at h
      · rintro ⟨h2, -⟩; omega
    · constructor
      · intro _
        exact ⟨by omega, fun d hd => by simp at hd⟩
      · intro _; rfl
  | some d =>
    simp only [validateLoanDates]
    split_ifs with h1 h2 h3
    · constructor
      · intro h; simp at h
      · rintro ⟨h4, -⟩; omega
    · constructor
      · intro h; simp at h
      · rintro ⟨h4, hb⟩
        have := hb d rfl
        omega
    · constructor
      · intro h; simp at h
      · rintro ⟨-, hb⟩
        have := hb d rfl
        omega
    · constructor
      · intro _
        refine ⟨by omega, fun d2 hd2 => ?_⟩
        injection hd2 with h4
        omega
      · intro _; rfl

theorem foldl_pickFirstByPk_spec (ps : List Person) :
    ∀ (acc : Option Person) (q : Person),
      ps.foldl pickFirstByPk acc = some q →
      ((acc = some q ∨ q ∈ ps)
       ∧ (∀ a0, acc = some a0 → q.id ≤ a0.id)
       ∧ (∀ r ∈ ps, q.id ≤ r.id)) := by
  induction ps with
  | nil =>
    intro acc q h
    simp only [List.foldl] at h
    refine ⟨Or.inl h, ?_, ?_⟩
    · intro a0 ha0
      rw [h] at ha0
      injection ha0 with h2
      exact h2 ▸ le_rfl
    · intro r hr
      simp at hr
  | cons p rest ih =>
    intro acc q h
    simp only [List.foldl] at h
    obtain ⟨h1, h2, h3⟩ := ih (pickFirstByPk acc p) q h
    cases acc with
    | none =>
      have hq : q.id ≤ p.id := h2 p rfl
      refine ⟨?_, ?_, ?_⟩
      · rcases h1 with h1 | h1
        · injection h1 with h4
          exact Or.inr (h4 ▸ List.mem_cons_self p rest)
        · exact Or.inr (List.mem_cons_of_mem p h1)
      · intro a0 ha0
        simp at ha0
      · intro r hr
        rcases List.mem_cons.1 hr with hr | hr
        · rw [hr]; exact hq
        · exact h3 r hr
    | some a =>
      by_cases hc : p.id < a.id
      · have hacc : pickFirstByPk (some a) p = some p := by
          simp [pickFirstByPk, hc]
        rw [hacc] at h1 h2
        have hqp : q.id ≤ p.id := h2 p rfl
        refine ⟨?_, ?_, ?_⟩
        · rcases h1 with h1 | h1
          · injection h1 with h4
            exact Or.inr (h4 ▸ List.mem_cons_self p rest)
          · exact Or.inr (List.mem_cons_of_mem p h1)
        · intro a0 ha0
          injection ha0 with h4
          rw [← h4]
          omega
        · intro r hr
          rcases List.mem_cons.1 hr with hr | hr
          · rw [hr]; exact hqp
          · exact h3 r hr
      · have hacc : pickFirstByPk (some a) p = some a := by
          simp [pickFirstByPk, hc]
        rw [hacc] at h1 h2
        have hqa : q.id ≤ a.id := h2 a rfl
        refine ⟨?_, ?_, ?_⟩
        · rcases h1 with h1 | h1
          · exact Or.inl h1
          · exact Or.inr (List.mem_cons_of_mem p h1)
        · intro a0 ha0
          injection ha0 with h4
          rw [← h4]
          exact hqa
        · intro r hr
          rcases List.mem_cons.1 hr with hr | hr
          · rw [hr]; omega
          · exact h3 r hr

theorem adminTargetStep_ok_cases {db : Db} {inp : RawInput} {base : CleanedLoan}
    {c : CleanedLoan} (h : adminTargetStep db inp base = Except.ok c) :
    (inp.targetType = some "person" ∧ ∃ p, inp.person = some p ∧
        c = { base with person := some p })
    ∨ (inp.targetType = some "desk" ∧ ∃ d dp, inp.desk = some d ∧
        inp.departmentPosition = some dp ∧
        c = { base with desk := some d, departmentPosition := some dp })
    ∨ (inp.targetType = some "office" ∧ ∃ o, inp.office = some o ∧
        c = { base with office := some o })
    ∨ (inp.targetType = some "department" ∧ ∃ dp, inp.departmentPosition = some dp ∧
        c = { base with departmentPosition := some dp }) := by
  unfold adminTargetStep at h
  split at h
  · rename_i h1
    left
    refine ⟨by simpa using h1, ?_⟩
    split at h
    · simp at h
    · rename_i p hp
      simp only [Except.ok.injEq] at h
      exact ⟨p, hp, h.symm⟩
  · rename_i h1
    split at h
    · rename_i h2
      right; left
      refine ⟨by simpa using h2, ?_⟩
      split at h
      · simp at h
      · rename_i d hd
        split at h
        · simp at h
        · rename_i dp hdp
          split at h
          · simp at h
          · split at h
            · simp at h
            · split at h
              · simp at h
              · simp only [Except.ok.injEq] at h
                exact ⟨d, dp, hd, hdp, h.symm⟩
    · rename_i h2
      split at h
      · rename_i h3
        right; right; left
        refine ⟨by simpa using h3, ?_⟩
        split at h
        · simp at h
        · rename_i o ho
          simp only [Except.ok.injEq] at h
          exact ⟨o, ho, h.symm⟩
      · rename_i h3
        split at h
        · rename_i h4
          right; right; right
          refine ⟨by simpa using h4, ?_⟩
          split at h
          · simp at h
          · rename_i dp hdp
            split at h
            · simp at h
            · split at h
              · simp at h
              · simp only [Except.ok.injEq] at h
                exact ⟨dp, hdp, h.symm⟩
        · simp at h

theorem adminLoanClean_ok {db : Db} {today : Int} {inp : RawInput}
    {c : CleanedLoan} (h : adminLoanClean db today inp = Except.ok c) :
    ∃ asset, findAsset db inp.assetId = some asset ∧
      asset.status = AssetStatus.available ∧
      adminTargetStep db inp (mkBaseCleaned asset inp) = Except.ok c ∧
      validateLoanDates today c.loanDate c.dueDate = Except.ok () := by
  unfold adminLoanClean at h
  split at h
  · simp at h
  · rename_i asset hfa
    split at h
    · simp at h
    · rename_i hst
      split at h
      · simp at h
      · rename_i c0 hts
        split at h
        · simp at h
        · rename_i u hv
          simp only [Except.ok.injEq] at h
          subst h
          cases u
          exact ⟨asset, hfa, by simpa using hst, hts, hv⟩

theorem companyLoanClean_ok {db : Db} {today : Int} {inp : RawInput}
    {c : CleanedLoan} (h : companyLoanClean db today inp = Except.ok c) :
    ∃ asset o dp, findAsset db inp.assetId = some asset ∧
      asset.status = AssetStatus.available ∧
      inp.office = some o ∧ inp.departmentPosition = some dp ∧
      validateLoanDates today inp.loanDate inp.dueDate = Except.ok () ∧
      c = { mkBaseCleaned asset inp with
            office := some o, departmentPosition := some dp } := by
  unfold companyLoanClean at h
  split at h
  · simp at h
  · rename_i asset hfa
    split at h
    · simp at h
    · rename_i hst
      split at h
      · simp at h
      · rename_i o ho
        split at h
        · simp at h
        · rename_i dp hdp
          split at h
          · simp at h
          · split at h
            · simp at h
            · split at h
              · simp at h
              · rename_i u hv
                simp only [Except.ok.injEq] at h
                cases u
                exact ⟨asset, o, dp, hfa, by simpa using hst, ho, hdp, hv, h.symm⟩

theorem employeeLoanClean_ok {db : Db} {today : Int} {user : User}
    {inp : RawInput} {ec : EmployeeCleaned}
    (h : employeeLoanClean db today user inp = Except.ok ec) :
    ∃ asset o dp d p, findAsset db inp.assetId = some asset ∧
      asset.status = AssetStatus.available ∧
      inp.office = some o ∧ inp.departmentPosition = some dp ∧ inp.desk = some d ∧
      employeeResolvePerson db user = some p ∧
      validateLoanDates today inp.loanDate inp.dueDate = Except.ok () ∧
      ec = { cleaned := { mkBaseCleaned asset inp with
               office := some o, departmentPosition := some dp, desk := some d },
             resolvedPerson := p } := by
  unfold employeeLoanClean at h
  split at h
  · simp at h
  · rename_i asset hfa
    split at h
    · simp at h
    · rename_i hst
      split at h
      · simp at h
      · rename_i o ho
        split at h
        · simp at h
        · rename_i dp hdp
          split at h
          · simp at h
          · split at h
            · simp at h
            · split at h
              · simp at h
              · rename_i d hd
                split at h
                · simp at h
                · split at h
                  · simp at h
                  · rename_i p hp
                    split at h
                    · simp at h
                    · rename_i u hv
                      simp only [Except.ok.injEq] at h
                      cases u
                      exact ⟨asset, o, dp, d, p, hfa, by simpa using hst, ho, hdp,
                        hd, hp, hv, h.symm⟩

theorem formCleanSave_ok_cases {role : String} {db : Db} {today : Int}
    {user : User} {inp : RawInput} {l : Loan}
    (h : formCleanSave role db today user inp = Except.ok l) :
    (role = ROLE_ADMIN ∧ ∃ c, adminLoanClean db today inp = Except.ok c ∧
        l = adminFormSave db.nextLoanId c)
    ∨ (role ≠ ROLE_ADMIN ∧ role = ROLE_COMPANY ∧
        ∃ c, companyLoanClean db today inp = Except.ok c ∧
          l = companyFormSave db.nextLoanId c)
    ∨ (role ≠ ROLE_ADMIN ∧ role ≠ ROLE_COMPANY ∧
        ∃ ec, employeeLoanClean db today user inp = Except.ok ec ∧
          l = employeeFormSave db.nextLoanId ec) := by
  unfold formCleanSave at h
  split_ifs at h with h1 h2
  · left
    refine ⟨by simpa using h1, ?_⟩
    split at h
    · simp at h
    · rename_i c hc
      simp only [Except.ok.injEq] at h
      exact ⟨c, hc, h.symm⟩
  · right; left
    refine ⟨by simpa using h1, by simpa using h2, ?_⟩
    split at h
    · simp at h
    · rename_i c hc
      simp only [Except.ok.injEq] at h
      exact ⟨c, hc, h.symm⟩
  · right; right
    refine ⟨by simpa using h1, by simpa using h2, ?_⟩
    split at h
    · simp at h
    · rename_i ec hec
      simp only [Except.ok.injEq] at h
      exact ⟨ec, hec, h.symm⟩

theorem loan_create_ok_shape {db : Db} {today : Int} {user : User}
    {inp : RawInput} {db1 : Db}
    (h : loan_create db today user inp = Except.ok db1) :
    ∃ loan0, formCleanSave (get_user_role user) db today user inp = Except.ok loan0 ∧
      db1 = { db with
        assets := setAssetStatus db.assets loan0.assetId AssetStatus.assigned,
        loans := db.loans ++
          [{ loan0 with createdById := some user.id,
                        issuedBy := some user.username }],
        nextLoanId := db.nextLoanId + 1 } := by
  unfold loan_create at h
  split at h
  · simp at h
  · rename_i loan0 hf
    simp only [Except.ok.injEq] at h
    exact ⟨loan0, hf, h.symm⟩

theorem canReturnLoan_iff (user : User) (loan : Loan) :
    canReturnLoan user loan = true ↔
      (get_user_role user = ROLE_ADMIN ∨ loan.createdById = some user.id ∨
       ∃ p, loan.person = some p ∧ p.userId = some user.id) := by
  unfold canReturnLoan
  cases hp : loan.person with
  | none => simp [hp]
  | some p => simp [hp, or_assoc]

theorem beq_none_false_of_isSome {α : Type} [DecidableEq α] {a : Option α}
    (h : a ≠ none) : (a == none) = false := by
  cases a with
  | none => exact absurd rfl h
  | some x => rfl

/-- C2 counterexample: on the HTML view path a second return of loan 1,
whose return_date is already set, answers a plain redirect with the
database unchanged — no AlreadyReturned error is reported, refuting the
claim that every exposed return path fails with an error. -/
theorem C2_view_second_return_silently_redirects :
    loan_return exDbReturned 9 exAdminUser 1 =
      ViewReturnResult.redirected exDbReturned := by
  rfl

/-- C2 (amended): a second return of an already-returned loan leaves both
the Loan and the Asset unchanged on both exposed paths; the REST action
reports the AlreadyReturned error ("Loan already returned.", HTTP 400)
while the HTML view silently redirects without an error. -/
theorem C2_second_return_unchanged_api_errors (db : Db) (today : Int)
    (user : User) (loanId : Nat) (loan : Loan)
    (hfind : findLoan db loanId = some loan) (hret : loan.returnDate ≠ none) :
    (loan_return db today user loanId = ViewReturnResult.forbidden ∨
     loan_return db today user loanId = ViewReturnResult.redirected db) ∧
    api_return_loan db today loanId =
      ApiReturnResult.badRequest "Loan already returned." := by
  constructor
  · by_cases hc : canReturnLoan user loan = true
    · right
      simp [loan_return, hfind, hc, beq_none_false_of_isSome hret]
    · left
      have hc2 : canReturnLoan user loan = false := by
        revert hc
        cases canReturnLoan user loan <;> simp
      simp [loan_return, hfind, hc2]
  · have hne : (loan.returnDate != none) = true := by
      cases hrd : loan.returnDate with
      | none => exact absurd hrd hret
      | some d => rfl
    simp [api_return_loan, hfind, hne]

/-- C2 witness for the amended theorem, at the already-returned loan 1 of
`exDbReturned` and the admin user. -/
theorem C2_second_return_witness :
    (loan_return exDbReturned 9 exAdminUser 1 = ViewReturnResult.forbidden ∨
     loan_return exDbReturned 9 exAdminUser 1 =
       ViewReturnResult.redirected exDbReturned) ∧
    api_return_loan exDbReturned 9 1 =
      ApiReturnResult.badRequest "Loan already returned." :=
  C2_second_return_unchanged_api_errors exDbReturned 9 exAdminUser 1
    exReturnedLoan (by rfl) (by simp [exReturnedLoan])

/-- C3 counterexample: the actor `exStranger` is no admin, did not create
loan 1 and is not its person target, so the HTML view forbids the return;
yet the REST return action, which checks no actor at all, performs the same
return successfully — refuting the claim for the REST path. -/
theorem C3_api_return_skips_authorization :
    loan_return exDbActive 9 exStranger 1 = ViewReturnResult.forbidden ∧
    api_return_loan exDbActive 9 1 = ApiReturnResult.ok
      { exDbActive with
          loans := setLoanReturnDate exDbActive.loans 1 9,
          assets := setAssetStatus exDbActive.assets 1 AssetStatus.available } :=
  ⟨rfl, rfl⟩

/-- C3 (amended): the HTML view's return succeeds only for an admin, the
loan's creator, or an actor linked to the loan's person target, answering
Forbidden in every other case; the REST return action applies no per-actor
authorization and returns any active loan for any caller. -/
theorem C3_return_authorization_scope (db : Db) (today : Int) (user : User)
    (loanId : Nat) (loan : Loan) (hfind : findLoan db loanId = some loan) :
    ((¬(get_user_role user = ROLE_ADMIN ∨ loan.createdById = some user.id ∨
        ∃ p, loan.person = some p ∧ p.userId = some user.id)) →
      loan_return db today user loanId = ViewReturnResult.forbidden) ∧
    (loan.returnDate = none →
      api_return_loan db today loanId = ApiReturnResult.ok
        { db with
            loans := setLoanReturnDate db.loans loanId today,
            assets := setAssetStatus db.assets loan.assetId AssetStatus.available }) := by
  constructor
  · intro hno
    have hc : canReturnLoan user loan = false := by
      cases hcb : canReturnLoan user loan with
      | false => rfl
      | true => exact absurd ((canReturnLoan_iff user loan).1 hcb) hno
    simp [loan_return, hfind, hc]
  · intro hact
    simp [api_return_loan, hfind, hact]

/-- C3 witness for the amended theorem, at the active loan 1 of
`exDbActive` and the unrelated actor `exStranger`. -/
theorem C3_return_authorization_witness :
    loan_return exDbActive 9 exStranger 1 = ViewReturnResult.forbidden ∧
    api_return_loan exDbActive 9 1 = ApiReturnResult.ok
      { exDbActive with
          loans := setLoanReturnDate exDbActive.loans 1 9,
          assets := setAssetStatus exDbActive.assets 1 AssetStatus.available } :=
  ⟨(C3_return_authorization_scope exDbActive 9 exStranger 1 exActiveLoan rfl).1
    (by
      rintro (h | h | ⟨p, hp, -⟩)
      · exact absurd h (by decide)
      · exact absurd h (by decide)
      · simp [exActiveLoan, exReturnedLoan] at hp),
   (C3_return_authorization_scope exDbActive 9 exStranger 1 exActiveLoan rfl).2 rfl⟩

/-- C5 counterexample: the asset REST serializer writes `status` straight
from user input onto an existing asset, outside any loan operation (the
loan table is untouched); `status` is likewise among the writable
`AssetForm` fields — refuting the claim that no public form or serializer
sets Asset.status directly. -/
theorem C5_asset_form_sets_status_directly :
    (assetSerializerUpdate exDb 1 exAssetStatusInput).assets =
      [{ exAsset with status := AssetStatus.assigned }] ∧
    (assetSerializerUpdate exDb 1 exAssetStatusInput).loans = [] ∧
    "status" ∈ assetFormMetaFields := by
  refine ⟨rfl, rfl, by decide⟩

/-- C5 (amended): within the loan engine, create flips exactly the loaned
asset to assigned and return flips it back to available, and the loan
forms themselves never touch assets; however both the AssetForm and the
AssetSerializer expose `status` as a writable field of the asset-editing
interface, which sets it directly without touching any loan. -/
theorem C5_status_write_surface :
    (∀ db today user inp db1, loan_create db today user inp = Except.ok db1 →
      ∃ loan0, db1.assets = setAssetStatus db.assets loan0.assetId AssetStatus.assigned ∧
        db1.loans = db.loans ++ [loan0]) ∧
    (∀ db today user loanId db2,
      loan_return db today user loanId = ViewReturnResult.redirected db2 →
      db2 = db ∨ ∃ loan, findLoan db loanId = some loan ∧
        db2.assets = setAssetStatus db.assets loan.assetId AssetStatus.available ∧
        db2.loans = setLoanReturnDate db.loans loanId today) ∧
    ("status" ∈ assetFormMetaFields ∧ "status" ∈ assetSerializerWritableFields) ∧
    (∀ db i inp, (assetSerializerUpdate db i inp).loans = db.loans ∧
      (asset_create_view db i inp).loans = db.loans) := by
  refine ⟨?_, ?_, ⟨by decide, by decide⟩, ?_⟩
  · intro db today user inp db1 h
    obtain ⟨loan0, -, hdb1⟩ := loan_create_ok_shape h
    exact ⟨{ loan0 with createdById := some user.id, issuedBy := some user.username },
      by rw [hdb1], by rw [hdb1]⟩
  · intro db today user loanId db2 h
    unfold loan_return at h
    split at h
    · simp at h
    · rename_i loan hfind
      split at h
      · simp at h
      · split at h
        · simp only [ViewReturnResult.redirected.injEq] at h
          right
          exact ⟨loan, hfind, by rw [← h], by rw [← h]⟩
        · simp only [ViewReturnResult.redirected.injEq] at h
          left
          exact h.symm
  · intro db i inp
    exact ⟨rfl, rfl⟩

/-- C5 witness for the amended theorem: the employee create on `exDb`
flips exactly asset 1 to assigned and appends one loan. -/
theorem C5_status_write_surface_witness :
    ∃ loan0, exDbAfterCreate.assets =
        setAssetStatus exDb.assets loan0.assetId AssetStatus.assigned ∧
      exDbAfterCreate.loans = exDb.loans ++ [loan0] :=
  C5_status_write_surface.1 exDb 0 exEmployeeUser exEmployeeInput
    exDbAfterCreate (by rfl)

/-- C6 counterexample: an admin loan with target type department is
persisted with the denormalized label "Blue #1" — the string rendering of
the chosen department position, not the empty label the claim requires for
non-person targets. -/
theorem C6_department_target_label_not_empty :
    (loan_create exDb 0 exAdminUser exAdminDeptInput).map
      (fun d => d.loans.map Loan.department) = Except.ok [some "Blue #1"] := by
  rfl

/-- C6 (amended): in the admin strategy the persisted department label is
the person's raw profile text for a person target (empty when the profile
text is empty), empty for an office target, and the string rendering of the
chosen department position for desk and department targets. -/
theorem C6_admin_department_label_rule (db : Db) (today : Int) (inp : RawInput)
    (c : CleanedLoan) (loanId : Nat)
    (h : adminLoanClean db today inp = Except.ok c) :
    (inp.targetType = some "person" →
      ∃ p, inp.person = some p ∧
        (adminFormSave loanId c).department =
          (if optStrTruthy p.department then p.department else none)) ∧
    (inp.targetType = some "office" → (adminFormSave loanId c).department = none) ∧
    ((inp.targetType = some "desk" ∨ inp.targetType = some "department") →
      ∃ dp, inp.departmentPosition = some dp ∧
        (adminFormSave loanId c).department = some (dpStr dp)) := by
  obtain ⟨asset, -, -, hts, -⟩ := adminLoanClean_ok h
  rcases adminTargetStep_ok_cases hts with
    ⟨ht, p, hp, hcc⟩ | ⟨ht, d, dp, hd, hdp, hcc⟩ | ⟨ht, o, ho, hcc⟩ |
    ⟨ht, dp, hdp, hcc⟩
  · refine ⟨?_, ?_, ?_⟩
    · intro _
      refine ⟨p, hp, ?_⟩
      subst hcc
      by_cases htr : optStrTruthy p.department = true
      · simp [adminFormSave, buildLoan, assignLegacyDepartmentLabel,
          mkBaseCleaned, htr]
      · have htr2 : optStrTruthy p.department = false := by
          revert htr; cases optStrTruthy p.department <;> simp
        have hnone : optStrTruthy (none : Option String) = false := rfl
        simp [adminFormSave, buildLoan, assignLegacyDepartmentLabel,
          mkBaseCleaned, htr2, hnone]
    · intro ht2
      exact absurd (ht.symm.trans ht2) (by decide)
    · rintro (ht2 | ht2) <;> exact absurd (ht.symm.trans ht2) (by decide)
  · refine ⟨?_, ?_, ?_⟩
    · intro ht2
      exact absurd (ht.symm.trans ht2) (by decide)
    · intro ht2
      exact absurd (ht.symm.trans ht2) (by decide)
    · intro _
      refine ⟨dp, hdp, ?_⟩
      subst hcc
      simp [adminFormSave, buildLoan, assignLegacyDepartmentLabel, mkBaseCleaned]
  · refine ⟨?_, ?_, ?_⟩
    · intro ht2
      exact absurd (ht.symm.trans ht2) (by decide)
    · intro _
      subst hcc
      have hnone : optStrTruthy (none : Option String) = false := rfl
      simp [adminFormSave, buildLoan, assignLegacyDepartmentLabel, mkBaseCleaned,
        hnone]
    · rintro (ht2 | ht2) <;> exact absurd (ht.symm.trans ht2) (by decide)
  · refine ⟨?_, ?_, ?_⟩
    · intro ht2
      exact absurd (ht.symm.trans ht2) (by decide)
    · intro ht2
      exact absurd (ht.symm.trans ht2) (by decide)
    · intro _
      refine ⟨dp, hdp, ?_⟩
      subst hcc
      simp [adminFormSave, buildLoan, assignLegacyDepartmentLabel, mkBaseCleaned]

/-- C6 witness for the amended theorem, at the admin person-target input on
`exDb`: the label equals Jan Kowalski's profile department. -/
theorem C6_admin_department_label_witness :
    ∃ p, exAdminPersonInput.person = some p ∧
      (adminFormSave 1 exAdminPersonCleaned).department =
        (if optStrTruthy p.department then p.department else none) :=
  (C6_admin_department_label_rule exDb 0 exAdminPersonInput
    exAdminPersonCleaned 1 (by rfl)).1 rfl

/-- C7: date validation succeeds exactly when loan_date is not before today
and due_date, when present, is not before loan_date — so it fails whenever
loan_date is in the past or due_date precedes loan_date, the two conditions
the claim names; and every role's create path only persists a loan when
those conditions hold (a bad date means no loan is created). -/
theorem C7_date_validation :
    (∀ today ld (dd : Option Int),
      validateLoanDates today ld dd = Except.ok () ↔
        (today ≤ ld ∧ ∀ d, dd = some d → ld ≤ d)) ∧
    (∀ db today user inp db1, loan_create db today user inp = Except.ok db1 →
      (today ≤ inp.loanDate ∧ ∀ d, inp.dueDate = some d → inp.loanDate ≤ d)) := by
  constructor
  · exact validateLoanDates_ok_iff
  · intro db today user inp db1 h
    obtain ⟨loan0, hf, -⟩ := loan_create_ok_shape h
    have hv : validateLoanDates today inp.loanDate inp.dueDate = Except.ok () := by
      rcases formCleanSave_ok_cases hf with
        ⟨-, c, hc, -⟩ | ⟨-, -, c, hc, -⟩ | ⟨-, -, ec, hec, -⟩
      · obtain ⟨asset, -, -, hts, hvc⟩ := adminLoanClean_ok hc
        rcases adminTargetStep_ok_cases hts with
          ⟨-, p, -, hcc⟩ | ⟨-, d, dp, -, -, hcc⟩ | ⟨-, o, -, hcc⟩ | ⟨-, dp, -, hcc⟩ <;>
          (subst hcc; simpa [mkBaseCleaned] using hvc)
      · obtain ⟨asset, o, dp, -, -, -, -, hvc, -⟩ := companyLoanClean_ok hc
        exact hvc
      · obtain ⟨asset, o, dp, d, p, -, -, -, -, -, -, hvc, -⟩ :=
          employeeLoanClean_ok hec
        exact hvc
    exact (validateLoanDates_ok_iff today inp.loanDate inp.dueDate).1 hv

/-- C7 witness: the successful employee create on `exDb` instantiates the
persistence conjunct at loan_date 0, today 0, no due date. -/
theorem C7_date_validation_witness :
    0 ≤ exEmployeeInput.loanDate ∧
    ∀ d, exEmployeeInput.dueDate = some d → exEmployeeInput.loanDate ≤ d :=
  C7_date_validation.2 exDb 0 exEmployeeUser exEmployeeInput exDbAfterCreate
    (by rfl)

/-- C8: employee person resolution — the explicit one-to-one link takes
precedence; failing that, the case-insensitive email match resolves
deterministically to the matching Person with the least primary key
(Django's `first()` on the unordered queryset); and when neither resolves
while every other validation passes, the employee clean fails with the
dedicated profile-not-linked message, not a generic validation error. -/
theorem C8_employee_person_resolution :
    (∀ db user p, user.isAuthenticated = true →
      linkedPerson db user = some p → employeeResolvePerson db user = some p) ∧
    (∀ db user q, user.isAuthenticated = true →
      linkedPerson db user = none → employeeResolvePerson db user = some q →
      (q ∈ db.persons ∧ emailIexact q user.email = true ∧
        ∀ r ∈ db.persons, emailIexact r user.email = true → q.id ≤ r.id)) ∧
    (∀ db today user inp asset o dp d,
      findAsset db inp.assetId = some asset →
      asset.status = AssetStatus.available →
      inp.office = some o → inp.departmentPosition = some dp →
      dp.department.office.id = o.id →
      isDepartmentPositionAvailable db dp = true →
      inp.desk = some d → d.room.office.id = o.id →
      employeeResolvePerson db user = none →
      employeeLoanClean db today user inp = Except.error profileNotLinkedMsg) := by
  refine ⟨?_, ?_, ?_⟩
  · intro db user p hauth hlink
    simp [employeeResolvePerson, hauth, hlink]
  · intro db user q hauth hlink hres
    simp only [employeeResolvePerson, hauth, Bool.not_true, Bool.false_eq_true,
      if_false, hlink] at hres
    by_cases he : user.email = ""
    · simp [he] at hres
    · have he2 : (user.email != "") = true := by simpa using he
      rw [he2] at hres
      simp only [if_true] at hres
      unfold emailIexactFirst at hres
      obtain ⟨h1, -, h3⟩ := foldl_pickFirstByPk_spec _ none q hres
      rcases h1 with h1 | h1
      · simp at h1
      · have hq := List.mem_filter.1 h1
        refine ⟨hq.1, hq.2, ?_⟩
        intro r hr hmatch
        exact h3 r (List.mem_filter.2 ⟨hr, hmatch⟩)
  · intro db today user inp asset o dp d hfa hst ho hdp hoff hav hd hdo hres
    have hbne : (asset.status != AssetStatus.available) = false := by
      simp [hst]
    have hb2 : (dp.department.office.id != o.id) = false := by simp [hoff]
    have hb3 : (d.room.office.id != o.id) = false := by simp [hdo]
    simp [employeeLoanClean, hfa, hbne, ho, hdp, hb2, hav, hd, hb3, hres]

/-- C8 witness: a user with no linked Person and a non-matching email on an
otherwise valid employee input fails with the profile-not-linked message. -/
theorem C8_employee_person_resolution_witness :
    employeeLoanClean exDb 0 exUserNoProfile exEmployeeInput =
      Except.error profileNotLinkedMsg :=
  C8_employee_person_resolution.2.2 exDb 0 exUserNoProfile exEmployeeInput
    exAsset exOffice exDp exDesk rfl rfl rfl rfl rfl rfl rfl rfl (by rfl)

theorem loanVisiblePred_iff (user : User) (person : Option Person) (l : Loan) :
    loanVisiblePred user person l = true ↔
      (l.createdById = some user.id ∨
       ∃ p lp, person = some p ∧ l.person = some lp ∧ lp.id = p.id) := by
  unfold loanVisiblePred
  cases person with
  | none => cases hp : l.person <;> simp [hp]
  | some p => cases hp : l.person <;> simp [hp]

/-- C9: the admin actor's history is all loans; a non-admin actor's history
is exactly the loans they created or whose person target matches their
resolved person; the active-loans view applies the identical filter and
differs from history only by the return_date-is-null restriction. -/
theorem C9_visible_loans_views_agree (db : Db) (user : User) :
    loans_list db user = (history db user).filter (fun l => l.returnDate == none) ∧
    (∀ l, l ∈ loans_list db user ↔ (l ∈ history db user ∧ l.returnDate = none)) ∧
    (get_user_role user = ROLE_ADMIN → history db user = db.loans) ∧
    (get_user_role user ≠ ROLE_ADMIN →
      ∀ l, l ∈ history db user ↔ (l ∈ db.loans ∧
        (l.createdById = some user.id ∨
         ∃ p lp, resolve_person_for_user db user = some p ∧ l.person = some lp ∧
           lp.id = p.id))) := by
  have h1 : loans_list db user =
      (history db user).filter (fun l => l.returnDate == none) := by
    by_cases hrole : get_user_role user = ROLE_ADMIN
    · simp [loans_list, history, hrole]
    · have hb : (get_user_role user == ROLE_ADMIN) = false := by simpa using hrole
      simp only [loans_list, history, hb, Bool.false_eq_true, if_false]
      rw [List.filter_filter, List.filter_filter]
      exact List.filter_congr (fun a _ => by rw [Bool.and_comm])
  refine ⟨h1, ?_, ?_, ?_⟩
  · intro l
    rw [h1, List.mem_filter]
    simp
  · intro hrole
    simp [history, hrole]
  · intro hrole l
    have hb : (get_user_role user == ROLE_ADMIN) = false := by simpa using hrole
    simp only [history, hb, Bool.false_eq_true, if_false, List.mem_filter]
    rw [loanVisiblePred_iff]

/-- C9 witness: the admin user's history over `exDb` is all of its loans. -/
theorem C9_visible_loans_witness : history exDb exAdminUser = exDb.loans :=
  (C9_visible_loans_views_agree exDb exAdminUser).2.2.1 (by rfl)

/-- C10: the displayed target is selected by the fixed precedence person,
desk, office, department position, then the denormalized department string,
falling back to a null-typed "-" when all are empty; the HTML label is
exactly the rendering of the serializer's target, so the two projections
agree on this order. -/
theorem C10_target_projection_precedence (l : Loan) :
    target_label l = renderTarget (get_target l)
    ∧ (∀ p, get_target { l with person := some p } =
        { targetType := some "person", label := personStr p })
    ∧ (∀ d, get_target { l with person := none, desk := some d } =
        { targetType := some "desk", label := deskStr d })
    ∧ (∀ o, get_target { l with person := none, desk := none, office := some o } =
        { targetType := some "office", label := officeStr o })
    ∧ (∀ dp, get_target { l with
          person := none, desk := none, office := none,
          departmentPosition := some dp } =
        { targetType := some "department", label := dpStr dp })
    ∧ (∀ s, optStrTruthy s = true →
        get_target { l with
          person := none, desk := none, office := none,
          departmentPosition := none, department := s } =
        { targetType := some "department", label := s.getD "" })
    ∧ get_target { l with
        person := none, desk := none, office := none,
        departmentPosition := none, department := none } =
      { targetType := none, label := "-" } := by
  refine ⟨?_, fun p => rfl, fun d => rfl, fun o => rfl, fun dp => rfl, ?_, rfl⟩
  · cases hp : l.person with
    | some p => simp [target_label, get_target, renderTarget, hp]
    | none =>
      cases hd : l.desk with
      | some d => simp [target_label, get_target, renderTarget, hp, hd]
      | none =>
        cases ho : l.office with
        | some o => simp [target_label, get_target, renderTarget, hp, hd, ho]
        | none =>
          cases hdp : l.departmentPosition with
          | some dp => simp [target_label, get_target, renderTarget, hp, hd, ho, hdp]
          | none =>
            by_cases ht : optStrTruthy l.department = true
            · simp [target_label, get_target, renderTarget, hp, hd, ho, hdp, ht]
            · have ht2 : optStrTruthy l.department = false := by
                revert ht; cases optStrTruthy l.department <;> simp
              simp [target_label, get_target, renderTarget, hp, hd, ho, hdp, ht2]
  · intro s hs
    simp [get_target, hs]

/-- C10 witness: the department-string fallback conjunct instantiated at
the label "IT" on the loan `exReturnedLoan`. -/
theorem C10_target_projection_witness :
    get_target { exReturnedLoan with
        person := none, desk := none, office := none,
        departmentPosition := none, department := some "IT" } =
      { targetType := some "department", label := (some "IT").getD "" } :=
  (C10_target_projection_precedence exReturnedLoan).2.2.2.2.2.1 (some "IT")
    (by decide)

theorem targetPattern_stamp (l : Loan) (u : Option Nat) (s : Option String) :
    targetPattern { l with createdById := u, issuedBy := s } = targetPattern l :=
  rfl

theorem adminClean_pattern {db : Db} {today : Int} {inp : RawInput}
    {c : CleanedLoan} (h : adminLoanClean db today inp = Except.ok c) :
    (inp.targetType = some "person" ∧
      (c.person.isSome, c.desk.isSome, c.office.isSome, c.departmentPosition.isSome) =
        (true, false, false, false))
    ∨ (inp.targetType = some "desk" ∧
      (c.person.isSome, c.desk.isSome, c.office.isSome, c.departmentPosition.isSome) =
        (false, true, false, true))
    ∨ (inp.targetType = some "office" ∧
      (c.person.isSome, c.desk.isSome, c.office.isSome, c.departmentPosition.isSome) =
        (false, false, true, false))
    ∨ (inp.targetType = some "department" ∧
      (c.person.isSome, c.desk.isSome, c.office.isSome, c.departmentPosition.isSome) =
        (false, false, false, true)) := by
  obtain ⟨asset, -, -, hts, -⟩ := adminLoanClean_ok h
  rcases adminTargetStep_ok_cases hts with
    ⟨ht, p, -, hcc⟩ | ⟨ht, d, dp, -, -, hcc⟩ | ⟨ht, o, -, hcc⟩ | ⟨ht, dp, -, hcc⟩
  · exact Or.inl ⟨ht, by subst hcc; rfl⟩
  · exact Or.inr (Or.inl ⟨ht, by subst hcc; rfl⟩)
  · exact Or.inr (Or.inr (Or.inl ⟨ht, by subst hcc; rfl⟩))
  · exact Or.inr (Or.inr (Or.inr ⟨ht, by subst hcc; rfl⟩))

/-- C1 counterexample: the employee create path on `exDb` persists a loan
whose person, desk, office and department_position references are all
non-null at once — refuting the exactly-one-target claim for this path. -/
theorem C1_employee_loan_all_four_targets :
    (loan_create exDb 0 exEmployeeUser exEmployeeInput).map
      (fun d => d.loans.map targetPattern) =
      Except.ok [(true, true, true, true)] := by
  rfl

/-- C1 (amended): each create path persists a fixed pattern of non-null
target fields: the admin form persists exactly one for person and office
targets, department_position alone for department targets, but desk plus
department_position for desk targets; the company form persists office and
department_position; the employee form persists all four; only the REST
serializer enforces an exactly-one rule — over five candidates (the four
references plus the bare department label) — so loans persisted through it
have at most one of the four reference fields non-null. -/
theorem C1_target_field_patterns_by_path :
    (∀ db today user inp db1 loan,
      loan_create db today user inp = Except.ok db1 →
      db1.loans = db.loans ++ [loan] →
      ((get_user_role user = ROLE_ADMIN →
         (inp.targetType = some "person" →
           targetPattern loan = (true, false, false, false)) ∧
         (inp.targetType = some "desk" →
           targetPattern loan = (false, true, false, true)) ∧
         (inp.targetType = some "office" →
           targetPattern loan = (false, false, true, false)) ∧
         (inp.targetType = some "department" →
           targetPattern loan = (false, false, false, true))) ∧
       (get_user_role user ≠ ROLE_ADMIN → get_user_role user = ROLE_COMPANY →
         targetPattern loan = (false, false, true, true)) ∧
       (get_user_role user ≠ ROLE_ADMIN → get_user_role user ≠ ROLE_COMPANY →
         targetPattern loan = (true, true, true, true)))) ∧
    (∀ db today inp db1 loan,
      api_loan_create db today inp = Except.ok db1 →
      db1.loans = db.loans ++ [loan] →
      (if loan.person.isSome then 1 else 0) + (if loan.desk.isSome then 1 else 0) +
        (if loan.office.isSome then 1 else 0) +
        (if loan.departmentPosition.isSome then 1 else 0) ≤ 1) := by
  constructor
  · intro db today user inp db1 loan hC hL
    obtain ⟨loan0, hf, hdb1⟩ := loan_create_ok_shape hC
    subst hdb1
    have hL2 : db.loans ++
        [{ loan0 with
            createdById := some user.id,
            issuedBy := some user.username }] = db.loans ++ [loan] := hL
    have hloan : loan = { loan0 with
        createdById := some user.id,
        issuedBy := some user.username } := by
      simpa using (List.append_cancel_left hL2).symm
    rcases formCleanSave_ok_cases hf with
      ⟨hrA, c, hc, hl0⟩ | ⟨hnA, hrC, c, hc, hl0⟩ | ⟨hnA, hnC, ec, hec, hl0⟩
    · have hpat : targetPattern loan =
          (c.person.isSome, c.desk.isSome, c.office.isSome,
            c.departmentPosition.isSome) := by
        rw [hloan, hl0, targetPattern_stamp]
        unfold adminFormSave
        rw [targetPattern_assignLegacy]
        rfl
      refine ⟨fun _ => ?_, fun hn _ => absurd hrA hn, fun hn _ => absurd hrA hn⟩
      rcases adminClean_pattern hc with
        ⟨ht, hteq⟩ | ⟨ht, hteq⟩ | ⟨ht, hteq⟩ | ⟨ht, hteq⟩
      · exact ⟨fun _ => by rw [hpat]; exact hteq,
          fun ht2 => absurd (ht.symm.trans ht2) (by decide),
          fun ht2 => absurd (ht.symm.trans ht2) (by decide),
          fun ht2 => absurd (ht.symm.trans ht2) (by decide)⟩
      · exact ⟨fun ht2 => absurd (ht.symm.trans ht2) (by decide),
          fun _ => by rw [hpat]; exact hteq,
          fun ht2 => absurd (ht.symm.trans ht2) (by decide),
          fun ht2 => absurd (ht.symm.trans ht2) (by decide)⟩
      · exact ⟨fun ht2 => absurd (ht.symm.trans ht2) (by decide),
          fun ht2 => absurd (ht.symm.trans ht2) (by decide),
          fun _ => by rw [hpat]; exact hteq,
          fun ht2 => absurd (ht.symm.trans ht2) (by decide)⟩
      · exact ⟨fun ht2 => absurd (ht.symm.trans ht2) (by decide),
          fun ht2 => absurd (ht.symm.trans ht2) (by decide),
          fun ht2 => absurd (ht.symm.trans ht2) (by decide),
          fun _ => by rw [hpat]; exact hteq⟩
    · obtain ⟨asset, o, dp, -, -, -, -, -, hcc⟩ := companyLoanClean_ok hc
      have hpat : targetPattern loan = (false, false, true, true) := by
        rw [hloan, hl0, targetPattern_stamp]
        unfold companyFormSave
        rw [targetPattern_assignLegacy]
        subst hcc
        rfl
      exact ⟨fun hA => absurd hA hnA, fun _ _ => hpat,
        fun _ hnC2 => absurd hrC hnC2⟩
    · obtain ⟨asset, o, dp, d, p, -, -, -, -, -, -, -, hecq⟩ :=
        employeeLoanClean_ok hec
      have hpat : targetPattern loan = (true, true, true, true) := by
        rw [hloan, hl0, targetPattern_stamp]
        unfold employeeFormSave
        rw [targetPattern_assignLegacy]
        subst hecq
        rfl
      exact ⟨fun hA => absurd hA hnA, fun _ hC2 => absurd hC2 hnC,
        fun _ _ => hpat⟩
  · intro db today inp db1 loan hC hL
    unfold api_loan_create at hC
    split at hC
    · simp at hC
    · rename_i v hv
      simp only [Except.ok.injEq] at hC
      subst hC
      have hL2 : db.loans ++
          [{ id := db.nextLoanId, assetId := v.asset.id, createdById := none,
             person := v.person, desk := v.desk, office := v.office,
             departmentPosition := v.departmentPosition,
             department := v.department, loanDate := today,
             dueDate := v.dueDate, returnDate := none,
             issuedBy := v.issuedBy }] = db.loans ++ [loan] := hL
      have hloan : loan =
          { id := db.nextLoanId, assetId := v.asset.id, createdById := none,
            person := v.person, desk := v.desk, office := v.office,
            departmentPosition := v.departmentPosition,
            department := v.department, loanDate := today,
            dueDate := v.dueDate, returnDate := none,
            issuedBy := v.issuedBy } := by
        simpa using (List.append_cancel_left hL2).symm
      unfold loanSerializerValidate at hv
      split at hv
      · simp at hv
      · rename_i asset hfa
        split at hv
        · simp at hv
        · rename_i hst
          split at hv
          · simp at hv
          · rename_i hcnt
            split at hv
            · simp at hv
            · simp only [Except.ok.injEq] at hv
              subst hv
              have hcnt2 : serializerChosenCount inp = 1 := by simpa using hcnt
              rw [hloan]
              show (if inp.person.isSome then 1 else 0) +
                  (if inp.desk.isSome then 1 else 0) +
                  (if inp.office.isSome then 1 else 0) +
                  (if inp.departmentPosition.isSome then 1 else 0) ≤ 1
              unfold serializerChosenCount at hcnt2
              split_ifs at hcnt2 ⊢ <;> omega

/-- C1 witness for the amended theorem: the employee-path pattern at the
concrete create on `exDb`. -/
theorem C1_target_field_patterns_witness :
    targetPattern exEmployeeLoan = (true, true, true, true) :=
  (C1_target_field_patterns_by_path.1 exDb 0 exEmployeeUser exEmployeeInput
      exDbAfterCreate exEmployeeLoan (by rfl) (by rfl)).2.2 (by decide) (by decide)

theorem formCleanSave_ok_proj {role : String} {db : Db} {today : Int}
    {user : User} {inp : RawInput} {l : Loan}
    (h : formCleanSave role db today user inp = Except.ok l) :
    l.id = db.nextLoanId ∧ l.returnDate = none := by
  rcases formCleanSave_ok_cases h with
    ⟨-, c, -, hl⟩ | ⟨-, -, c, -, hl⟩ | ⟨-, -, ec, -, hl⟩
  · subst hl
    unfold adminFormSave
    obtain ⟨d, hd⟩ := assignLegacy_shape (buildLoan db.nextLoanId c)
    rw [hd]
    exact ⟨rfl, rfl⟩
  · subst hl
    unfold companyFormSave
    obtain ⟨d, hd⟩ := assignLegacy_shape (buildLoan db.nextLoanId c)
    rw [hd]
    exact ⟨rfl, rfl⟩
  · subst hl
    unfold employeeFormSave
    obtain ⟨d, hd⟩ := assignLegacy_shape
      { buildLoan db.nextLoanId ec.cleaned with person := some ec.resolvedPerson }
    rw [hd]
    exact ⟨rfl, rfl⟩

/-- C4: after a successful create (fresh loan id), the new loan is Active
(null return_date) and its asset is assigned; the creator's return flips
the asset back to available and stamps the return date, and a further
return call on the now-Returned loan changes nothing — the transition is
irreversible. -/
theorem C4_create_return_roundtrip (db : Db) (today today2 today3 : Int)
    (user : User) (inp : RawInput) (db1 : Db)
    (hfresh : ∀ l ∈ db.loans, l.id ≠ db.nextLoanId)
    (hcreate : loan_create db today user inp = Except.ok db1) :
    ∃ loan db2,
      findLoan db1 db.nextLoanId = some loan ∧
      loan.returnDate = none ∧
      (∀ a ∈ db1.assets, a.id = loan.assetId → a.status = AssetStatus.assigned) ∧
      loan_return db1 today2 user db.nextLoanId =
        ViewReturnResult.redirected db2 ∧
      findLoan db2 db.nextLoanId = some { loan with returnDate := some today2 } ∧
      (∀ a ∈ db2.assets, a.id = loan.assetId → a.status = AssetStatus.available) ∧
      loan_return db2 today3 user db.nextLoanId =
        ViewReturnResult.redirected db2 := by
  obtain ⟨loan0, hf, hdb1⟩ := loan_create_ok_shape hcreate
  obtain ⟨hid, hrd⟩ := formCleanSave_ok_proj hf
  subst hdb1
  have hfind1 : findLoan
      { db with
        assets := setAssetStatus db.assets loan0.assetId AssetStatus.assigned,
        loans := db.loans ++
          [{ loan0 with
              createdById := some user.id,
              issuedBy := some user.username }],
        nextLoanId := db.nextLoanId + 1 } db.nextLoanId =
      some { loan0 with
        createdById := some user.id, issuedBy := some user.username } := by
    unfold findLoan
    exact find_append_last _ db.loans _
      (fun y hy => (beq_eq_false_iff_ne (a := y.id) (b := db.nextLoanId)).2 (hfresh y hy))
      (by simp [hid])
  have hcan1 : canReturnLoan user
      { loan0 with
        createdById := some user.id, issuedBy := some user.username } = true := by
    simp [canReturnLoan]
  have hrd1 : (({ loan0 with
      createdById := some user.id,
      issuedBy := some user.username } : Loan).returnDate == none) = true := by
    simp [hrd]
  have hone : setLoanReturnDate
      [{ loan0 with
          createdById := some user.id, issuedBy := some user.username }]
      db.nextLoanId today2 =
      [{ loan0 with
          createdById := some user.id, issuedBy := some user.username,
          returnDate := some today2 }] := by
    simp [setLoanReturnDate, hid]
  have hret1 : loan_return
      { db with
        assets := setAssetStatus db.assets loan0.assetId AssetStatus.assigned,
        loans := db.loans ++
          [{ loan0 with
              createdById := some user.id,
              issuedBy := some user.username }],
        nextLoanId := db.nextLoanId + 1 } today2 user db.nextLoanId =
      ViewReturnResult.redirected
        { assets := setAssetStatus
            (setAssetStatus db.assets loan0.assetId AssetStatus.assigned)
            loan0.assetId AssetStatus.available,
          persons := db.persons,
          loans := setLoanReturnDate
            (db.loans ++
              [{ loan0 with
                  createdById := some user.id,
                  issuedBy := some user.username }]) db.nextLoanId today2,
          nextLoanId := db.nextLoanId + 1 } := by
    simp [loan_return, hfind1, hcan1, hrd1]
  have hfind2 : findLoan
      { assets := setAssetStatus
          (setAssetStatus db.assets loan0.assetId AssetStatus.assigned)
          loan0.assetId AssetStatus.available,
        persons := db.persons,
        loans := setLoanReturnDate
          (db.loans ++
            [{ loan0 with
                createdById := some user.id,
                issuedBy := some user.username }]) db.nextLoanId today2,
        nextLoanId := db.nextLoanId + 1 } db.nextLoanId =
      some { loan0 with
        createdById := some user.id, issuedBy := some user.username,
        returnDate := some today2 } := by
    unfold findLoan
    show (setLoanReturnDate
        (db.loans ++
          [{ loan0 with
              createdById := some user.id,
              issuedBy := some user.username }]) db.nextLoanId today2).find?
        (fun l => l.id == db.nextLoanId) = some _
    rw [setLoanReturnDate_append, hone]
    exact find_append_last _ _ _
      (fun y hy => (beq_eq_false_iff_ne (a := y.id) (b := db.nextLoanId)).2
        (setLoanReturnDate_fresh db.loans db.nextLoanId db.nextLoanId today2
          hfresh y hy))
      (by simp [hid])
  have hcan2 : canReturnLoan user
      { loan0 with
        createdById := some user.id, issuedBy := some user.username,
        returnDate := some today2 } = true := by
    simp [canReturnLoan]
  have hret2 : loan_return
      { assets := setAssetStatus
          (setAssetStatus db.assets loan0.assetId AssetStatus.assigned)
          loan0.assetId AssetStatus.available,
        persons := db.persons,
        loans := setLoanReturnDate
          (db.loans ++
            [{ loan0 with
                createdById := some user.id,
                issuedBy := some user.username }]) db.nextLoanId today2,
        nextLoanId := db.nextLoanId + 1 } today3 user db.nextLoanId =
      ViewReturnResult.redirected
        { assets := setAssetStatus
            (setAssetStatus db.assets loan0.assetId AssetStatus.assigned)
            loan0.assetId AssetStatus.available,
          persons := db.persons,
          loans := setLoanReturnDate
            (db.loans ++
              [{ loan0 with
                  createdById := some user.id,
                  issuedBy := some user.username }]) db.nextLoanId today2,
          nextLoanId := db.nextLoanId + 1 } := by
    simp [loan_return, hfind2, hcan2]
  refine ⟨{ loan0 with
      createdById := some user.id, issuedBy := some user.username },
    { assets := setAssetStatus
        (setAssetStatus db.assets loan0.assetId AssetStatus.assigned)
        loan0.assetId AssetStatus.available,
      persons := db.persons,
      loans := setLoanReturnDate
        (db.loans ++
          [{ loan0 with
              createdById := some user.id,
              issuedBy := some user.username }]) db.nextLoanId today2,
      nextLoanId := db.nextLoanId + 1 },
    hfind1, hrd, ?_, hret1, hfind2, ?_, hret2⟩
  · intro a ha hid2
    exact setAssetStatus_status ha hid2
  · intro a ha hid2
    exact setAssetStatus_status ha hid2

/-- C4 witness: the round trip at the concrete employee create on `exDb`,
returned by the same user on day 5 and probed again on day 6. -/
theorem C4_create_return_roundtrip_witness :
    ∃ loan db2,
      findLoan exDbAfterCreate 1 = some loan ∧
      loan.returnDate = none ∧
      (∀ a ∈ exDbAfterCreate.assets, a.id = loan.assetId →
        a.status = AssetStatus.assigned) ∧
      loan_return exDbAfterCreate 5 exEmployeeUser 1 =
        ViewReturnResult.redirected db2 ∧
      findLoan db2 1 = some { loan with returnDate := some (5 : Int) } ∧
      (∀ a ∈ db2.assets, a.id = loan.assetId →
        a.status = AssetStatus.available) ∧
      loan_return db2 6 exEmployeeUser 1 = ViewReturnResult.redirected db2 :=
  C4_create_return_roundtrip exDb 0 5 6 exEmployeeUser exEmployeeInput
    exDbAfterCreate (by simp [exDb]) (by rfl)

end Inventory
